import Mathlib

/-!
Shallow embedding of the resource-lifecycle layer of the py_ipfs_node
repository (Go sources: the node-registry wrapper, `pubsub.go`, `p2p.go`,
and the file/download operations), together with proofs about the embedded
operations.

State that in Go lives in package-level maps guarded by mutexes
(`activeNodes`, `subscriptions`) is modelled as explicit association lists
inside a `World` record; every exported operation becomes a pure function
from `World` to a result, a new `World`, and a trace of observable events
(node closures, reported no-op releases, cancellation signals, cleanup
stage logs). The external Node Runtime (kubo/boxo) is modelled through
explicit environment flags saying which runtime calls succeed, mirroring
the error branches of the Go code.
-/

namespace IpfsNode

/-- A pubsub message as decoded by `messageReceiver` in `pubsub.go`
(fields `From`, `Data`, `Seqno`, `Topics`, `TopicID`). -/
structure Message where
  msgFrom : String
  data : List Nat
  seqno : List Nat
  topics : List String
  topicID : String
deriving DecidableEq, Repr

/-- One active pubsub subscription (`subscriptionInfo` in `pubsub.go`):
its topic, its FIFO message queue, and the repo path whose node it
borrows. The runtime subscription object and the cancellation context are
modelled by the trace events emitted when they are closed/cancelled. -/
structure SubscriptionInfo where
  topic : String
  messageQueue : List Message
  repoPath : String
deriving DecidableEq, Repr

/-- A stream-mounting listener of the runtime's p2p service
(protocol, listen address, target address). -/
structure Listener where
  protocol : String
  listenAddress : String
  targetAddress : String
deriving DecidableEq, Repr

/-- A live forwarded stream in the runtime's p2p stream table. -/
structure StreamEntryM where
  streamId : Nat
  protocol : String
deriving DecidableEq, Repr

/-- `NodeInfo` from the node-registry wrapper: one active IPFS node.
`gen` identifies the underlying `core.IpfsNode` instance (a fresh one is
allocated per construction, so a `closeNode` trace event names exactly
which instance was closed). The p2p listener tables live on the node. -/
structure NodeInfo where
  gen : Nat
  refCount : Int
  listenersP2P : List Listener
  listenersLocal : List Listener
  streams : List StreamEntryM
deriving DecidableEq, Repr

/-- Observable events: node closures (`Node.Close()`), the reported no-op
release (`DEBUG: Attempted to release non-existent node`), the per-release
decrement log, subscription cancellation/closing, and the stage logs of
`CleanupNode`. -/
inductive Evt where
  | closeNode (gen : Nat)
  | releaseMissing (path : String)
  | releaseDec (path : String)
  | cancelSub (id : Int)
  | closeRuntimeSub (id : Int)
  | stageListeners (path : String)
  | stageForwards (path : String)
  | stageSubs (path : String)
  | stageForce (path : String)
  | stageNothing (path : String)
deriving DecidableEq, Repr

/-- The process-wide mutable state: the node registry (`activeNodes`),
the generation counter for fresh runtime nodes, the subscription registry
(`subscriptions`) and its id counter (`nextSubID`). -/
structure World where
  activeNodes : List (String × NodeInfo)
  nextGen : Nat
  subscriptions : List (Int × SubscriptionInfo)
  nextSubID : Int
deriving DecidableEq, Repr

/-- The empty initial state (no nodes, no subscriptions, `nextSubID = 1`). -/
def World.empty : World :=
  { activeNodes := [], nextGen := 0, subscriptions := [], nextSubID := 1 }

/-! ### Association-list primitives modelling Go maps -/

/-- Go map lookup `m[k]`. -/
def lookupA {κ α : Type} [DecidableEq κ] (k : κ) : List (κ × α) → Option α
  | [] => none
  | (k', v) :: rest => if k' = k then some v else lookupA k rest

/-- In-place mutation of the entry at `k` (Go code mutates the struct the
map points to). Only the first matching entry exists, by construction. -/
def updateA {κ α : Type} [DecidableEq κ] (k : κ) (f : α → α) :
    List (κ × α) → List (κ × α)
  | [] => []
  | (k', v) :: rest =>
    if k' = k then (k', f v) :: rest else (k', v) :: updateA k f rest

/-- Go map deletion `delete(m, k)`. -/
def eraseA {κ α : Type} [DecidableEq κ] (k : κ) : List (κ × α) → List (κ × α)
  | [] => []
  | (k', v) :: rest =>
    if k' = k then eraseA k rest else (k', v) :: eraseA k rest

theorem lookupA_updateA_self {κ α : Type} [DecidableEq κ] (k : κ) (f : α → α) :
    ∀ l : List (κ × α), lookupA k (updateA k f l) = (lookupA k l).map f := by
  intro l
  induction l with
  | nil => simp [lookupA, updateA]
  | cons hd tl ih =>
    obtain ⟨k', v⟩ := hd
    by_cases h : k' = k <;> simp [lookupA, updateA, h, ih]

theorem lookupA_eraseA_self {κ α : Type} [DecidableEq κ] (k : κ) :
    ∀ l : List (κ × α), lookupA k (eraseA k l) = none := by
  intro l
  induction l with
  | nil => simp [lookupA, eraseA]
  | cons hd tl ih =>
    obtain ⟨k', v⟩ := hd
    by_cases h : k' = k <;> simp [lookupA, eraseA, h, ih]

theorem eraseA_of_lookupA_none {κ α : Type} [DecidableEq κ] (k : κ) :
    ∀ l : List (κ × α), lookupA k l = none → eraseA k l = l := by
  intro l
  induction l with
  | nil => intro _; rfl
  | cons hd tl ih =>
    obtain ⟨k', v⟩ := hd
    by_cases h : k' = k
    · simp [lookupA, h]
    · simp [lookupA, eraseA, h]
      exact ih

theorem updateA_of_fixed {κ α : Type} [DecidableEq κ] (k : κ) (f : α → α) :
    ∀ l : List (κ × α), ∀ v, lookupA k l = some v → f v = v →
      updateA k f l = l := by
  intro l
  induction l with
  | nil => intro v h; simp [lookupA] at h
  | cons hd tl ih =>
    obtain ⟨k', v'⟩ := hd
    intro v hv hf
    by_cases h : k' = k
    · simp [lookupA, h] at hv
      simp [updateA, h, hv ▸ hf]
    · simp [lookupA, h] at hv
      simp [updateA, h, ih v hv hf]

/-! ### Node registry (`AcquireNode` / `ReleaseNode`) -/

/-- `AcquireNode(repoPath)`: if a node is registered, bump its refcount
and succeed; otherwise attempt `createNewNode` (success modelled by the
environment flag `createOk`; a fresh node gets generation `nextGen` and
empty p2p tables) and register it with `RefCount = 1`. Returns whether the
acquire succeeded. -/
def acquireNode (path : String) (createOk : Bool) (w : World) : Bool × World :=
  match lookupA path w.activeNodes with
  | some _ =>
    let nodes := updateA path (fun ni => { ni with refCount := ni.refCount + 1 }) w.activeNodes
    (true, { w with activeNodes := nodes })
  | none =>
    if createOk then
      let fresh : NodeInfo :=
        { gen := w.nextGen, refCount := 1,
          listenersP2P := [], listenersLocal := [], streams := [] }
      (true, { w with activeNodes := (path, fresh) :: w.activeNodes, nextGen := w.nextGen + 1 })
    else (false, w)

/-- `ReleaseNode(repoPath)`: a release for an unregistered path is a
reported no-op (`releaseMissing`); otherwise the refcount is decremented
(`releaseDec`), and if it drops to `≤ 0` the node is closed
(`closeNode gen`) and the entry deleted. -/
def releaseNode (path : String) (w : World) : World × List Evt :=
  match lookupA path w.activeNodes with
  | none => (w, [Evt.releaseMissing path])
  | some ni =>
    if ni.refCount - 1 ≤ 0 then
      ({ w with activeNodes := eraseA path w.activeNodes },
       [Evt.releaseDec path, Evt.closeNode ni.gen])
    else
      let nodes := updateA path (fun n => { n with refCount := n.refCount - 1 }) w.activeNodes
      ({ w with activeNodes := nodes }, [Evt.releaseDec path])

/-- One call in a sequence against the registry: an acquire (with its
environment flag saying whether node construction would succeed) or a
release. -/
inductive RegOp where
  | acq (createOk : Bool)
  | rel
deriving DecidableEq, Repr

/-- Result of running a sequence of registry calls: final state, trace,
number of successful acquires, number of release calls. -/
structure RunResult where
  world : World
  trace : List Evt
  acqOk : Nat
  relCalls : Nat
deriving DecidableEq, Repr

/-- Run a sequence of `AcquireNode(path)`/`ReleaseNode(path)` calls. -/
def runRegOps (path : String) : List RegOp → World → RunResult
  | [], w => { world := w, trace := [], acqOk := 0, relCalls := 0 }
  | RegOp.acq ok :: rest, w =>
    let (res, w') := acquireNode path ok w
    let r := runRegOps path rest w'
    { r with acqOk := (if res then 1 else 0) + r.acqOk }
  | RegOp.rel :: rest, w =>
    let (w', evts) := releaseNode path w
    let r := runRegOps path rest w'
    { r with trace := evts ++ r.trace, relCalls := r.relCalls + 1 }

/-- The generations of all nodes closed in a trace. -/
def closedGens (evts : List Evt) : List Nat :=
  evts.filterMap fun e =>
    match e with
    | Evt.closeNode g => some g
    | _ => none

/-- How many releases in a trace were reported no-ops (release of an
unregistered path). -/
def noopReleases (evts : List Evt) : Nat :=
  (evts.filter fun e =>
    match e with
    | Evt.releaseMissing _ => true
    | _ => false).length

/-- How many times `ReleaseNode` was invoked, as visible in a trace: each
invocation logs exactly one of `releaseMissing` or `releaseDec`. -/
def releaseCalls (evts : List Evt) : Nat :=
  (evts.filter fun e =>
    match e with
    | Evt.releaseMissing _ => true
    | Evt.releaseDec _ => true
    | _ => false).length

/-- The refcount registered for `path`, read as an integer (0 if absent). -/
def rcOf (path : String) (w : World) : Int :=
  match lookupA path w.activeNodes with
  | none => 0
  | some ni => ni.refCount

/-! ### Subscription manager (`pubsub.go`) -/

/-- `PubSubSubscribe(repoPath, topic)`: acquire the node (kept for the
subscription's lifetime), open the runtime subscription (success modelled
by `subOk`; on failure the node is released again and `-2` returned),
then register a `subscriptionInfo` under a fresh id and start the
receiver goroutine. Returns the id (or a negative failure code). -/
def pubSubSubscribe (path topic : String) (createOk subOk : Bool) (w : World) :
    Int × World × List Evt :=
  match acquireNode path createOk w with
  | (false, w') => (-1, w', [])
  | (true, w') =>
    if subOk then
      let subID := w'.nextSubID
      let si : SubscriptionInfo := { topic := topic, messageQueue := [], repoPath := path }
      (subID,
       { w' with subscriptions := (subID, si) :: w'.subscriptions, nextSubID := subID + 1 },
       [])
    else
      let (w'', evts) := releaseNode path w'
      (-2, w'', evts)

/-- One successful iteration of the `messageReceiver` goroutine for a
registered subscription: the decoded message is appended to the end of
the subscription's queue (under its own lock). -/
def deliverMessage (id : Int) (m : Message) (w : World) : World :=
  match lookupA id w.subscriptions with
  | none => w
  | some _ =>
    let subs := updateA id (fun s => { s with messageQueue := s.messageQueue ++ [m] }) w.subscriptions
    { w with subscriptions := subs }

/-- `PubSubNextMessage(subID)`: non-blocking poll. Unknown id or empty
queue yields `none` (a null C string in Go); otherwise the oldest queued
message is removed from the front of the queue and returned. -/
def pubSubNextMessage (id : Int) (w : World) : Option Message × World :=
  match lookupA id w.subscriptions with
  | none => (none, w)
  | some si =>
    match si.messageQueue with
    | [] => (none, w)
    | m :: rest =>
      let subs := updateA id (fun s => { s with messageQueue := rest }) w.subscriptions
      (some m, { w with subscriptions := subs })

/-- Repeatedly poll `PubSubNextMessage` up to `n` times, collecting the
returned messages in order and stopping early at the first empty poll. -/
def drainMessages (id : Int) : Nat → World → List Message × World
  | 0, w => ([], w)
  | n + 1, w =>
    match pubSubNextMessage id w with
    | (none, w') => ([], w')
    | (some m, w') =>
      let (ms, w'') := drainMessages id n w'
      (m :: ms, w'')

/-- `PubSubUnsubscribe(subID)`: unknown id reports `-1` with no effect;
otherwise cancel the receiver context, close the runtime subscription,
release the borrowed node once, delete the registry entry and return 0. -/
def pubSubUnsubscribe (id : Int) (w : World) : Int × World × List Evt :=
  match lookupA id w.subscriptions with
  | none => (-1, w, [])
  | some si =>
    let (w', evts) := releaseNode si.repoPath w
    (0, { w' with subscriptions := eraseA id w'.subscriptions },
     [Evt.cancelSub id, Evt.closeRuntimeSub id] ++ evts)

/-- `PubSubCloseRepoSubscriptions(repoPath)`: collect every subscription
whose `repoPath` matches; if none, return 0 untouched. Otherwise cancel,
close and delete each of them, release the node once for the whole repo
path, and return how many subscriptions were closed. -/
def pubSubCloseRepoSubscriptions (path : String) (w : World) : Int × World × List Evt :=
  let subsToClose := (w.subscriptions.filter fun p => p.2.repoPath = path).map Prod.fst
  if subsToClose.length = 0 then (0, w, [])
  else
    let evts := subsToClose.foldr
      (fun id acc => [Evt.cancelSub id, Evt.closeRuntimeSub id] ++ acc) []
    let w1 := { w with subscriptions := w.subscriptions.filter fun p => ¬ p.2.repoPath = path }
    let (w2, evts2) := releaseNode path w1
    ((subsToClose.length : Int), w2, evts ++ evts2)

/-- The distinct repo paths of a list, in first-occurrence order
(the contents of Go's `releasedPaths` set). -/
def distinctPaths (l : List String) : List String :=
  l.foldl (fun acc p => if acc.contains p then acc else acc ++ [p]) []

/-- Release the node of each path in the list, in order. -/
def releaseNodes : List String → World → World × List Evt
  | [], w => (w, [])
  | p :: rest, w =>
    let (w', e) := releaseNode p w
    let (w'', e') := releaseNodes rest w'
    (w'', e ++ e')

/-- `PubSubCloseAllSubscriptions()`: if there are no subscriptions,
return 0. Otherwise cancel, close and delete every subscription while
remembering each distinct repo path, then release the node once per
distinct path; the return value is the number of distinct paths released,
not the number of subscriptions closed. -/
def pubSubCloseAllSubscriptions (w : World) : Int × World × List Evt :=
  if w.subscriptions.length = 0 then (0, w, [])
  else
    let evts := w.subscriptions.foldr
      (fun p acc => [Evt.cancelSub p.1, Evt.closeRuntimeSub p.1] ++ acc) []
    let paths := distinctPaths (w.subscriptions.map fun p => p.2.repoPath)
    let (w2, evts2) := releaseNodes paths { w with subscriptions := [] }
    ((paths.length : Int), w2, evts ++ evts2)

/-! ### P2P stream mounting (`p2p.go`) -/

/-- Tests whether a protocol identifier already carries the required
Kubo namespace marker, `strings.HasPrefix(protocolName, "/x/")`. -/
def hasXPfx (s : String) : Bool :=
  match s.data with
  | '/' :: 'x' :: '/' :: _ => true
  | _ => false

/-- Protocol normalization done identically in `P2PForward`, `P2PListen`
and `P2PClose`: prepend "/x/" unless the identifier already starts
with it. -/
def normalizeProtocol (s : String) : String :=
  if hasXPfx s then s else "/x/" ++ s

/-- Runtime environment for `P2PForward`: whether the node can be
acquired/created, the listen multiaddr parses, the peer id parses, and
whether `ForwardLocal` succeeds. -/
structure P2PForwardEnv where
  createOk : Bool
  listenAddrOk : Bool
  peerIDOk : Bool
  forwardOk : Bool
deriving DecidableEq, Repr

/-- `P2PForward(repoPath, proto, listenAddr, targetPeerID)`: normalize
the protocol, acquire the node (released again before returning), parse
the addresses, then call `ForwardLocal` with the normalized protocol.
The second component records the protocol identifier handed to the
runtime, if the call got that far. -/
def p2pForward (path proto : String) (env : P2PForwardEnv) (w : World) :
    Int × Option String × World × List Evt :=
  let protocolName := normalizeProtocol proto
  match acquireNode path env.createOk w with
  | (false, w') => (-1, none, w', [])
  | (true, w') =>
    if ¬ env.listenAddrOk then
      let (w'', e) := releaseNode path w'
      (-3, none, w'', e)
    else if ¬ env.peerIDOk then
      let (w'', e) := releaseNode path w'
      (-4, none, w'', e)
    else if ¬ env.forwardOk then
      let (w'', e) := releaseNode path w'
      (-2, some protocolName, w'', e)
    else
      let nodes := updateA path
        (fun ni => { ni with listenersLocal := ni.listenersLocal ++
          [{ protocol := protocolName, listenAddress := "", targetAddress := "" }] })
        w'.activeNodes
      let (w'', e) := releaseNode path { w' with activeNodes := nodes }
      (1, some protocolName, w'', e)

/-- Runtime environment for `P2PListen`: node acquisition, target
multiaddr parse, and `ForwardRemote` success. -/
structure P2PListenEnv where
  createOk : Bool
  targetAddrOk : Bool
  listenOk : Bool
deriving DecidableEq, Repr

/-- `P2PListen(repoPath, proto, targetAddr)`: normalize the protocol,
acquire the node (released before returning), parse the target address,
then call `ForwardRemote` with the normalized protocol. The second
component records the protocol identifier handed to the runtime. -/
def p2pListen (path proto : String) (env : P2PListenEnv) (w : World) :
    Int × Option String × World × List Evt :=
  let protocolName := normalizeProtocol proto
  match acquireNode path env.createOk w with
  | (false, w') => (-1, none, w', [])
  | (true, w') =>
    if ¬ env.targetAddrOk then
      let (w'', e) := releaseNode path w'
      (-3, none, w'', e)
    else if ¬ env.listenOk then
      let (w'', e) := releaseNode path w'
      (-2, some protocolName, w'', e)
    else
      let nodes := updateA path
        (fun ni => { ni with listenersP2P := ni.listenersP2P ++
          [{ protocol := protocolName, listenAddress := "", targetAddress := "" }] })
        w'.activeNodes
      let (w'', e) := releaseNode path { w' with activeNodes := nodes }
      (1, some protocolName, w'', e)

/-- The protocol filter `P2PClose` builds before matching: the protocol
identifier is normalized only when non-empty (an empty identifier means
"no protocol filter"). -/
def p2pCloseProtocolFilter (proto : String) : Option String :=
  if proto = "" then none else some (normalizeProtocol proto)

/-- `P2PCloseAllListeners(repoPath)`: acquire the node (released before
returning), close every entry of the remote-listener table
(`ListenersP2P`) and return how many were closed. -/
def p2pCloseAllListeners (path : String) (createOk : Bool) (w : World) :
    Int × World × List Evt :=
  match acquireNode path createOk w with
  | (false, w') => (-1, w', [])
  | (true, w') =>
    match lookupA path w'.activeNodes with
    | none => (-1, w', [])
    | some ni =>
      let nodes := updateA path (fun n => { n with listenersP2P := [] }) w'.activeNodes
      let (w'', e) := releaseNode path { w' with activeNodes := nodes }
      ((ni.listenersP2P.length : Int), w'', e)

/-- `P2PCloseAllForwards(repoPath)`: acquire the node (released before
returning), close every entry of the local-forward table
(`ListenersLocal`) and every open stream, returning the total count. -/
def p2pCloseAllForwards (path : String) (createOk : Bool) (w : World) :
    Int × World × List Evt :=
  match acquireNode path createOk w with
  | (false, w') => (-1, w', [])
  | (true, w') =>
    match lookupA path w'.activeNodes with
    | none => (-1, w', [])
    | some ni =>
      let nodes := updateA path
        (fun n => { n with listenersLocal := [], streams := [] }) w'.activeNodes
      let (w'', e) := releaseNode path { w' with activeNodes := nodes }
      ((ni.listenersLocal.length : Int) + (ni.streams.length : Int), w'', e)

/-! ### Cleanup orchestrator (`CleanupNode`) -/

/-- The first three stages of `CleanupNode(repoPath)` in their source
order, each preceded by its stage log: close all P2P listeners, close
all P2P forwards, close all pubsub subscriptions for the path. -/
def cleanupStages (path : String) (createOk : Bool) (w : World) : World × List Evt :=
  let (_, w1, e1) := p2pCloseAllListeners path createOk w
  let (_, w2, e2) := p2pCloseAllForwards path createOk w1
  let (_, w3, e3) := pubSubCloseRepoSubscriptions path w2
  (w3, [Evt.stageListeners path] ++ e1 ++ [Evt.stageForwards path] ++ e2 ++
       [Evt.stageSubs path] ++ e3)

/-- `CleanupNode(repoPath)`: run the three teardown stages, then look the
node up; if it is no longer registered report `-1` ("didn't find node to
clean up"), otherwise force-close it regardless of its remaining
refcount, delete the entry and return 0. -/
def cleanupNode (path : String) (createOk : Bool) (w : World) : Int × World × List Evt :=
  let (w3, evts) := cleanupStages path createOk w
  match lookupA path w3.activeNodes with
  | none => (-1, w3, evts ++ [Evt.stageNothing path])
  | some ni =>
    (0, { w3 with activeNodes := eraseA path w3.activeNodes },
     evts ++ [Evt.stageForce path, Evt.closeNode ni.gen])

/-! ### Repository initialization (`CreateRepo`) -/

/-- `CreateRepo(repoPath)` over the set of already-initialized repo
paths: an initialized path returns 0 untouched; otherwise `config.Init`
failure gives `-1`, `fsrepo.Init` failure gives `-2`, and success marks
the path initialized and returns 1. -/
def createRepo (path : String) (configOk initOk : Bool) (repos : List String) :
    Int × List String :=
  if repos.contains path then (0, repos)
  else if ¬ configOk then (-1, repos)
  else if ¬ initOk then (-2, repos)
  else (1, path :: repos)

/-! ### Content download (`Download`) -/

/-- The dynamic type of the node fetched from IPFS, switched on at the
end of `Download`. -/
inductive FetchedKind where
  | file
  | dir
  | unknownKind
deriving DecidableEq, Repr

/-- Runtime environment for `Download(repoPath, cidStr, destPath)`: which
stage succeeds (acquire, CID decode, `Unixfs().Get`, destination-parent
`MkdirAll`), the kind of the fetched node, and the success of the
kind-specific work. -/
structure DownloadEnv where
  acquireOk : Bool
  decodeOk : Bool
  fetchOk : Bool
  mkdirOk : Bool
  kind : FetchedKind
  readOk : Bool
  writeOk : Bool
  destMkdirOk : Bool
  dirWalkOk : Bool
deriving DecidableEq, Repr

/-- The status code `Download` returns in each environment, following the
branch structure of the Go code: acquire failure `-1`, CID decode failure
`-2`, fetch failure `-2`, destination-directory creation failure `-3`,
then per-kind handling (file read `-5` / write `-6`; directory mkdir `-7`
/ recursive walk `-8`; unknown node type `-9`), and 0 on success. -/
def download (env : DownloadEnv) : Int :=
  if ¬ env.acquireOk then -1
  else if ¬ env.decodeOk then -2
  else if ¬ env.fetchOk then -2
  else if ¬ env.mkdirOk then -3
  else
    match env.kind with
    | FetchedKind.file => if ¬ env.readOk then -5 else if ¬ env.writeOk then -6 else 0
    | FetchedKind.dir => if ¬ env.destMkdirOk then -7 else if ¬ env.dirWalkOk then -8 else 0
    | FetchedKind.unknownKind => -9

/-- Whether an event is one of the `CleanupNode` stage logs. -/
def isStageEvt : Evt → Bool
  | Evt.stageListeners _ => true
  | Evt.stageForwards _ => true
  | Evt.stageSubs _ => true
  | Evt.stageForce _ => true
  | Evt.stageNothing _ => true
  | _ => false

/-! ### Helper lemmas -/

theorem releaseNode_subscriptions (path : String) (w : World) :
    (releaseNode path w).1.subscriptions = w.subscriptions := by
  unfold releaseNode
  cases lookupA path w.activeNodes with
  | none => rfl
  | some ni => by_cases h : ni.refCount - 1 ≤ 0 <;> simp [h]

theorem releaseNode_nextSubID (path : String) (w : World) :
    (releaseNode path w).1.nextSubID = w.nextSubID := by
  unfold releaseNode
  cases lookupA path w.activeNodes with
  | none => rfl
  | some ni => by_cases h : ni.refCount - 1 ≤ 0 <;> simp [h]

theorem releaseCalls_append (a b : List Evt) :
    releaseCalls (a ++ b) = releaseCalls a + releaseCalls b := by
  simp [releaseCalls, List.filter_append]

theorem releaseCalls_releaseNode (path : String) (w : World) :
    releaseCalls (releaseNode path w).2 = 1 := by
  unfold releaseNode
  cases lookupA path w.activeNodes with
  | none => rfl
  | some ni =>
    by_cases h : ni.refCount - 1 ≤ 0 <;> simp [h, releaseCalls]

theorem rcOf_releaseNode (path : String) (w : World) (ni : NodeInfo)
    (hn : lookupA path w.activeNodes = some ni) (hrc : 1 ≤ ni.refCount) :
    rcOf path (releaseNode path w).1 = ni.refCount - 1 := by
  unfold releaseNode
  rw [hn]
  by_cases h : ni.refCount - 1 ≤ 0
  · have h1 : ni.refCount = 1 := le_antisymm (by omega) hrc
    simp [rcOf, lookupA_eraseA_self, h, h1]
  · simp only [h, if_false]
    simp [rcOf, lookupA_updateA_self, hn]

theorem updateA_updateA {κ α : Type} [DecidableEq κ] (k : κ) (f g : α → α) :
    ∀ l : List (κ × α), updateA k f (updateA k g l) = updateA k (fun v => f (g v)) l := by
  intro l
  induction l with
  | nil => rfl
  | cons hd tl ih =>
    obtain ⟨k', v⟩ := hd
    by_cases h : k' = k <;> simp [updateA, h, ih]

theorem stageFilter_releaseNode (path : String) (w : World) :
    (releaseNode path w).2.filter isStageEvt = [] := by
  unfold releaseNode
  cases lookupA path w.activeNodes with
  | none => rfl
  | some ni =>
    by_cases h : ni.refCount - 1 ≤ 0 <;> simp [h, isStageEvt]

theorem stageFilter_cancelFold (l : List Int) :
    (l.foldr (fun id acc => [Evt.cancelSub id, Evt.closeRuntimeSub id] ++ acc)
      []).filter isStageEvt = [] := by
  induction l with
  | nil => rfl
  | cons hd tl ih =>
    simp only [List.foldr, List.cons_append, List.nil_append, List.filter_cons]
    simpa [isStageEvt] using ih

theorem stageFilter_closeRepoSubs (path : String) (w : World) :
    (pubSubCloseRepoSubscriptions path w).2.2.filter isStageEvt = [] := by
  unfold pubSubCloseRepoSubscriptions
  by_cases h : ((w.subscriptions.filter fun p => p.2.repoPath = path).map Prod.fst).length = 0
  · simp [h]
  · simp only [h, if_false]
    rw [List.filter_append, stageFilter_cancelFold, stageFilter_releaseNode]
    rfl

theorem noRelease_cancelFold (l : List Int) :
    releaseCalls (l.foldr (fun id acc => [Evt.cancelSub id, Evt.closeRuntimeSub id] ++ acc)
      []) = 0 := by
  induction l with
  | nil => rfl
  | cons hd tl ih => simp [List.foldr, releaseCalls] at ih ⊢; exact ih

theorem hasXPfx_prepend (s : String) : hasXPfx ("/x/" ++ s) = true := by
  simp [hasXPfx, String.data_append]

theorem releaseCalls_releaseNodes :
    ∀ (paths : List String) (w : World),
      releaseCalls (releaseNodes paths w).2 = paths.length := by
  intro paths
  induction paths with
  | nil => intro w; rfl
  | cons p rest ih =>
    intro w
    unfold releaseNodes
    rcases hr : releaseNode p w with ⟨w', e⟩
    rcases hrs : releaseNodes rest w' with ⟨w'', e'⟩
    simp only [hr, hrs]
    have h1 : releaseCalls e = 1 := by
      have h := releaseCalls_releaseNode p w
      rw [hr] at h
      exact h
    have h2 : releaseCalls e' = rest.length := by
      have h := ih w'
      rw [hrs] at h
      exact h
    rw [releaseCalls_append, h1, h2]
    simp [List.length_cons, Nat.add_comm]

theorem noRelease_cancelFoldSubs (l : List (Int × SubscriptionInfo)) :
    releaseCalls (l.foldr
      (fun p acc => [Evt.cancelSub p.1, Evt.closeRuntimeSub p.1] ++ acc) []) = 0 := by
  induction l with
  | nil => rfl
  | cons hd tl ih => simp [List.foldr, releaseCalls] at ih ⊢; exact ih

theorem drainMessages_queue (id : Int) :
    ∀ (q : List Message) (w : World) (si : SubscriptionInfo),
      lookupA id w.subscriptions = some si → si.messageQueue = q →
      (drainMessages id q.length w).1 = q := by
  intro q
  induction q with
  | nil => intro w si _ _; rfl
  | cons m rest ih =>
    intro w si h hq
    have hw' : pubSubNextMessage id w = (some m, { w with subscriptions := updateA id (fun s => { s with messageQueue := rest }) w.subscriptions }) := by
      simp only [pubSubNextMessage, h, hq]
    show (drainMessages id (rest.length + 1) w).1 = m :: rest
    unfold drainMessages
    rw [hw']
    have hlook : lookupA id (updateA id (fun s => { s with messageQueue := rest }) w.subscriptions) = some { si with messageQueue := rest } := by
      rw [lookupA_updateA_self, h]
      rfl
    have hrec := ih { w with subscriptions := updateA id (fun s => { s with messageQueue := rest }) w.subscriptions } { si with messageQueue := rest } hlook rfl
    simp [hrec]

/-! ### Claim theorems -/

/-- C7: `CreateRepo` is idempotent: on an already-initialized path it
returns the distinct "already initialized" status 0 and leaves the set of
initialized repositories untouched (no config is written), and a second
call after a successful first one always takes this branch. -/
theorem c7_create_repo_idempotent (path : String) (configOk initOk : Bool)
    (repos : List String) :
    (repos.contains path = true → createRepo path configOk initOk repos = (0, repos)) ∧
    (∀ repos' c' i', createRepo path configOk initOk repos = (1, repos') →
      createRepo path c' i' repos' = (0, repos')) := by
  constructor
  · intro h
    have hm : path ∈ repos := by simpa using h
    simp [createRepo, hm]
  · intro repos' c' i' h
    by_cases hm : path ∈ repos
    · simp [createRepo, hm] at h
    · cases configOk with
      | false => simp [createRepo, hm] at h
      | true =>
        cases initOk with
        | false => simp [createRepo, hm] at h
        | true =>
          simp [createRepo, hm] at h
          have hmem : path ∈ repos' := by
            rw [← h]
            exact List.mem_cons_self _ _
          simp [createRepo, hmem]

/-- C7 witness: a fresh path is created once (status 1) and the second
call reports "already initialized" (status 0) without changing state. -/
theorem c7_create_repo_idempotent_witness :
    createRepo "/repo" true true ["/repo"] = (0, ["/repo"]) ∧
    createRepo "/repo" true true ["/repo", "/other"] = (0, ["/repo", "/other"]) := by
  refine ⟨(c7_create_repo_idempotent "/repo" true true ["/repo"]).1 (by decide), ?_⟩
  exact (c7_create_repo_idempotent "/repo" true true ["/other"]).2
    ["/repo", "/other"] true true (by decide)

/-- C8 counterexample: the claim says decode failure, fetch failure,
mkdir failure and unknown node type each map to a *different* negative
integer, but a CID-decode failure and a fetch failure both return `-2`,
so a caller cannot tell those two stages apart. -/
theorem c8_counterexample :
    download { acquireOk := true, decodeOk := false, fetchOk := true, mkdirOk := true,
               kind := FetchedKind.file, readOk := true, writeOk := true,
               destMkdirOk := true, dirWalkOk := true } = -2 ∧
    download { acquireOk := true, decodeOk := true, fetchOk := false, mkdirOk := true,
               kind := FetchedKind.file, readOk := true, writeOk := true,
               destMkdirOk := true, dirWalkOk := true } = -2 ∧
    ¬ (download { acquireOk := true, decodeOk := false, fetchOk := true, mkdirOk := true,
                  kind := FetchedKind.file, readOk := true, writeOk := true,
                  destMkdirOk := true, dirWalkOk := true } ≠
       download { acquireOk := true, decodeOk := true, fetchOk := false, mkdirOk := true,
                  kind := FetchedKind.file, readOk := true, writeOk := true,
                  destMkdirOk := true, dirWalkOk := true }) := by
  decide

/-- C8 amended: every failure stage of `Download` reports a negative
code; destination-directory creation (`-3`) and unknown node type (`-9`)
are distinct from each other and from the decode/fetch code, but
content-id decode failure and fetch failure share the same code `-2`,
so those two stages are not distinguishable from the code alone. -/
theorem c8_download_codes_amended (env : DownloadEnv) :
    (env.acquireOk = true → env.decodeOk = false → download env = -2) ∧
    (env.acquireOk = true → env.decodeOk = true → env.fetchOk = false →
      download env = -2) ∧
    (env.acquireOk = true → env.decodeOk = true → env.fetchOk = true →
      env.mkdirOk = false → download env = -3) ∧
    (env.acquireOk = true → env.decodeOk = true → env.fetchOk = true →
      env.mkdirOk = true → env.kind = FetchedKind.unknownKind → download env = -9) ∧
    (download env = -2 ∨ download env = -3 ∨ download env = -9 → download env < 0) ∧
    ((-2 : Int) ≠ -3 ∧ (-2 : Int) ≠ -9 ∧ (-3 : Int) ≠ -9) := by
  refine ⟨?_, ?_, ?_, ?_, ?_, by decide⟩
  · intro h1 h2; simp [download, h1, h2]
  · intro h1 h2 h3; simp [download, h1, h2, h3]
  · intro h1 h2 h3 h4; simp [download, h1, h2, h3, h4]
  · intro h1 h2 h3 h4 h5; simp [download, h1, h2, h3, h4, h5]
  · intro h; rcases h with h | h | h <;> rw [h] <;> decide

/-- C8 witness: concrete environments hitting the decode, fetch, mkdir
and unknown-node-type stages produce `-2`, `-2`, `-3` and `-9`. -/
theorem c8_download_codes_amended_witness :
    download { acquireOk := true, decodeOk := false, fetchOk := true, mkdirOk := true,
               kind := FetchedKind.file, readOk := true, writeOk := true,
               destMkdirOk := true, dirWalkOk := true } = -2 ∧
    download { acquireOk := true, decodeOk := true, fetchOk := false, mkdirOk := true,
               kind := FetchedKind.file, readOk := true, writeOk := true,
               destMkdirOk := true, dirWalkOk := true } = -2 ∧
    download { acquireOk := true, decodeOk := true, fetchOk := true, mkdirOk := false,
               kind := FetchedKind.file, readOk := true, writeOk := true,
               destMkdirOk := true, dirWalkOk := true } = -3 ∧
    download { acquireOk := true, decodeOk := true, fetchOk := true, mkdirOk := true,
               kind := FetchedKind.unknownKind, readOk := true, writeOk := true,
               destMkdirOk := true, dirWalkOk := true } = -9 := by
  refine ⟨(c8_download_codes_amended _).1 rfl rfl,
          (c8_download_codes_amended _).2.1 rfl rfl rfl,
          (c8_download_codes_amended _).2.2.1 rfl rfl rfl rfl,
          (c8_download_codes_amended _).2.2.2.1 rfl rfl rfl rfl rfl⟩

/-- C9: the protocol identifier handed to the runtime by `P2PForward`,
`P2PListen` and `P2PClose` is the input unchanged when it already starts
with the "/x/" namespace marker and the marker prepended otherwise; the
normalization is idempotent and its result always carries the marker. -/
theorem c9_protocol_normalization (s path : String) (envF : P2PForwardEnv)
    (envL : P2PListenEnv) (w : World) :
    (hasXPfx s = true → normalizeProtocol s = s) ∧
    (hasXPfx s = false → normalizeProtocol s = "/x/" ++ s) ∧
    normalizeProtocol (normalizeProtocol s) = normalizeProtocol s ∧
    hasXPfx (normalizeProtocol s) = true ∧
    (∀ used, (p2pForward path s envF w).2.1 = some used → used = normalizeProtocol s) ∧
    (∀ used, (p2pListen path s envL w).2.1 = some used → used = normalizeProtocol s) ∧
    (s ≠ "" → p2pCloseProtocolFilter s = some (normalizeProtocol s)) := by
  have hfix : ∀ t, hasXPfx t = true → normalizeProtocol t = t := by
    intro t h
    simp [normalizeProtocol, h]
  have hpfx : hasXPfx (normalizeProtocol s) = true := by
    by_cases h : hasXPfx s = true
    · rw [hfix s h]; exact h
    · simp only [normalizeProtocol, h, if_false]
      exact hasXPfx_prepend s
  refine ⟨?_, ?_, ?_, hpfx, ?_, ?_, ?_⟩
  · intro h; exact hfix s h
  · intro h; simp [normalizeProtocol, h]
  · exact hfix _ hpfx
  · intro used h
    unfold p2pForward at h
    rcases hacq : acquireNode path envF.createOk w with ⟨b, w'⟩
    rw [hacq] at h
    cases b with
    | false => simp at h
    | true =>
      by_cases h1 : envF.listenAddrOk <;> by_cases h2 : envF.peerIDOk <;>
        by_cases h3 : envF.forwardOk <;>
        simp [h1, h2, h3] at h <;> exact h.symm
  · intro used h
    unfold p2pListen at h
    rcases hacq : acquireNode path envL.createOk w with ⟨b, w'⟩
    rw [hacq] at h
    cases b with
    | false => simp at h
    | true =>
      by_cases h1 : envL.targetAddrOk <;> by_cases h2 : envL.listenOk <;>
        simp [h1, h2] at h <;> exact h.symm
  · intro h; simp [p2pCloseProtocolFilter, h]

/-- C9 witness: "echo" gets the marker prepended and "/x/echo" is left
unchanged; `P2PForward` hands the normalized identifier to the runtime. -/
theorem c9_protocol_normalization_witness :
    normalizeProtocol "echo" = "/x/echo" ∧
    normalizeProtocol "/x/echo" = "/x/echo" ∧
    p2pCloseProtocolFilter "echo" = some "/x/echo" := by
  have h1 := (c9_protocol_normalization "echo" "/repo"
    { createOk := true, listenAddrOk := true, peerIDOk := true, forwardOk := true }
    { createOk := true, targetAddrOk := true, listenOk := true } World.empty)
  have h2 := (c9_protocol_normalization "/x/echo" "/repo"
    { createOk := true, listenAddrOk := true, peerIDOk := true, forwardOk := true }
    { createOk := true, targetAddrOk := true, listenOk := true } World.empty)
  have e1 : normalizeProtocol "echo" = "/x/echo" := by
    rw [h1.2.1 (by decide)]
    decide
  refine ⟨e1, ?_, ?_⟩
  · rw [h2.1 (by decide)]
  · rw [h1.2.2.2.2.2.2 (by decide), e1]

/-- C10: `PubSubCloseRepoSubscriptions(path)` returns the number of
subscriptions it closed, while `PubSubCloseAllSubscriptions()` returns
the number of distinct repository paths whose node borrow it released
(releasing exactly once per distinct path), not the number of
subscriptions; both return 0 when nothing matches, in which case the
state is untouched and no node borrow is released. -/
theorem c10_bulk_close_return_units (path : String) (w : World) :
    ((pubSubCloseRepoSubscriptions path w).1 =
      ((w.subscriptions.filter fun p => p.2.repoPath = path).length : Int)) ∧
    ((w.subscriptions.filter fun p => p.2.repoPath = path) = [] →
      pubSubCloseRepoSubscriptions path w = (0, w, [])) ∧
    ((pubSubCloseAllSubscriptions w).1 =
      ((distinctPaths (w.subscriptions.map fun p => p.2.repoPath)).length : Int)) ∧
    (w.subscriptions = [] → pubSubCloseAllSubscriptions w = (0, w, [])) ∧
    releaseCalls (pubSubCloseAllSubscriptions w).2.2 =
      (distinctPaths (w.subscriptions.map fun p => p.2.repoPath)).length := by
  have hlenmap : ((w.subscriptions.filter fun p => p.2.repoPath = path).map Prod.fst).length =
      (w.subscriptions.filter fun p => p.2.repoPath = path).length := List.length_map _ _
  refine ⟨?_, ?_, ?_, ?_, ?_⟩
  · unfold pubSubCloseRepoSubscriptions
    by_cases h : ((w.subscriptions.filter fun p => p.2.repoPath = path).map Prod.fst).length = 0
    · rw [hlenmap] at h
      simp [hlenmap, h]
    · simp only [h, if_false]
      simp [hlenmap]
  · intro h
    unfold pubSubCloseRepoSubscriptions
    simp [h]
  · unfold pubSubCloseAllSubscriptions
    by_cases h : w.subscriptions.length = 0
    · have hnil : w.subscriptions = [] := List.length_eq_zero.mp h
      simp [h, hnil, distinctPaths]
    · simp [h]
  · intro h
    unfold pubSubCloseAllSubscriptions
    simp [h]
  · unfold pubSubCloseAllSubscriptions
    by_cases h : w.subscriptions.length = 0
    · have hnil : w.subscriptions = [] := List.length_eq_zero.mp h
      simp [h, hnil, releaseCalls, distinctPaths]
    · simp only [h, if_false]
      rw [releaseCalls_append, noRelease_cancelFoldSubs, releaseCalls_releaseNodes]
      simp

/-- C10 witness: a world with two subscriptions sharing one repo path:
the per-repo close reports 2 closed subscriptions, the global close
reports 1 (the distinct path count) and performs exactly one release;
on the empty world both report 0 and change nothing. -/
theorem c10_bulk_close_return_units_witness :
    (pubSubCloseRepoSubscriptions "p" { activeNodes := [("p", { gen := 0, refCount := 2, listenersP2P := [], listenersLocal := [], streams := [] })], nextGen := 1, subscriptions := [(1, { topic := "t1", messageQueue := [], repoPath := "p" }), (2, { topic := "t2", messageQueue := [], repoPath := "p" })], nextSubID := 3 }).1 = 2 ∧
    (pubSubCloseAllSubscriptions { activeNodes := [("p", { gen := 0, refCount := 2, listenersP2P := [], listenersLocal := [], streams := [] })], nextGen := 1, subscriptions := [(1, { topic := "t1", messageQueue := [], repoPath := "p" }), (2, { topic := "t2", messageQueue := [], repoPath := "p" })], nextSubID := 3 }).1 = 1 ∧
    releaseCalls (pubSubCloseAllSubscriptions { activeNodes := [("p", { gen := 0, refCount := 2, listenersP2P := [], listenersLocal := [], streams := [] })], nextGen := 1, subscriptions := [(1, { topic := "t1", messageQueue := [], repoPath := "p" }), (2, { topic := "t2", messageQueue := [], repoPath := "p" })], nextSubID := 3 }).2.2 = 1 ∧
    pubSubCloseRepoSubscriptions "p" World.empty = (0, World.empty, []) ∧
    pubSubCloseAllSubscriptions World.empty = (0, World.empty, []) := by
  have h1 := c10_bulk_close_return_units "p" { activeNodes := [("p", { gen := 0, refCount := 2, listenersP2P := [], listenersLocal := [], streams := [] })], nextGen := 1, subscriptions := [(1, { topic := "t1", messageQueue := [], repoPath := "p" }), (2, { topic := "t2", messageQueue := [], repoPath := "p" })], nextSubID := 3 }
  have h2 := c10_bulk_close_return_units "p" World.empty
  refine ⟨?_, ?_, ?_, h2.2.1 (by decide), h2.2.2.2.1 (by decide)⟩
  · rw [h1.1]; decide
  · rw [h1.2.2.1]; decide
  · rw [h1.2.2.2.2]; decide

/-- C3: for a registered subscription, `PubSubNextMessage` pops and
returns the oldest queued message (the head of the FIFO queue) without
blocking, successive polls return the messages in exactly the order the
delivery task appended them, and on an empty queue it returns the empty
result leaving the state (and hence the empty queue) unchanged. -/
theorem c3_next_message_fifo (id : Int) (w : World) (si : SubscriptionInfo)
    (h : lookupA id w.subscriptions = some si) :
    (pubSubNextMessage id w).1 = si.messageQueue.head? ∧
    lookupA id (pubSubNextMessage id w).2.subscriptions =
      some { si with messageQueue := si.messageQueue.tail } ∧
    (si.messageQueue = [] → pubSubNextMessage id w = (none, w)) ∧
    (drainMessages id si.messageQueue.length w).1 = si.messageQueue ∧
    (∀ m, lookupA id (deliverMessage id m w).subscriptions =
      some { si with messageQueue := si.messageQueue ++ [m] }) := by
  refine ⟨?_, ?_, ?_, drainMessages_queue id _ w si h rfl, ?_⟩
  · cases hq : si.messageQueue <;> simp [pubSubNextMessage, h, hq]
  · cases hq : si.messageQueue with
    | nil =>
      simp only [pubSubNextMessage, h, hq, List.tail_nil]
      rw [← hq]
    | cons m rest =>
      simp only [pubSubNextMessage, h, hq, List.tail_cons]
      rw [lookupA_updateA_self, h]
      rfl
  · intro hq
    simp [pubSubNextMessage, h, hq]
  · intro m
    simp only [deliverMessage, h]
    rw [lookupA_updateA_self, h]
    rfl

/-- C3 witness: a subscription with two queued messages: the first poll
returns the older one, draining returns both in order, and delivery
appends at the back. -/
theorem c3_next_message_fifo_witness :
    (pubSubNextMessage 7 { activeNodes := [], nextGen := 0, subscriptions := [(7, { topic := "t", messageQueue := [{ msgFrom := "a", data := [1], seqno := [], topics := [], topicID := "t" }, { msgFrom := "b", data := [2], seqno := [], topics := [], topicID := "t" }], repoPath := "p" })], nextSubID := 8 }).1 = some { msgFrom := "a", data := [1], seqno := [], topics := [], topicID := "t" } ∧
    (drainMessages 7 2 { activeNodes := [], nextGen := 0, subscriptions := [(7, { topic := "t", messageQueue := [{ msgFrom := "a", data := [1], seqno := [], topics := [], topicID := "t" }, { msgFrom := "b", data := [2], seqno := [], topics := [], topicID := "t" }], repoPath := "p" })], nextSubID := 8 }).1 = [{ msgFrom := "a", data := [1], seqno := [], topics := [], topicID := "t" }, { msgFrom := "b", data := [2], seqno := [], topics := [], topicID := "t" }] := by
  have h := c3_next_message_fifo 7 { activeNodes := [], nextGen := 0, subscriptions := [(7, { topic := "t", messageQueue := [{ msgFrom := "a", data := [1], seqno := [], topics := [], topicID := "t" }, { msgFrom := "b", data := [2], seqno := [], topics := [], topicID := "t" }], repoPath := "p" })], nextSubID := 8 } { topic := "t", messageQueue := [{ msgFrom := "a", data := [1], seqno := [], topics := [], topicID := "t" }, { msgFrom := "b", data := [2], seqno := [], topics := [], topicID := "t" }], repoPath := "p" } (by decide)
  refine ⟨?_, ?_⟩
  · rw [h.1]; decide
  · have hd := h.2.2.2.1
    simpa using hd

/-- C2 counterexample: two subscriptions on path "p", each having done
one acquire at subscribe time, so the node's refcount is 2; the claim
says the bulk close makes the refcount drop by N = 2 (to 0), but the
code releases once per path, so the refcount only drops to 1. -/
theorem c2_counterexample :
    rcOf "p" { activeNodes := [("p", { gen := 0, refCount := 2, listenersP2P := [], listenersLocal := [], streams := [] })], nextGen := 1, subscriptions := [(1, { topic := "t1", messageQueue := [], repoPath := "p" }), (2, { topic := "t2", messageQueue := [], repoPath := "p" })], nextSubID := 3 } = 2 ∧
    (pubSubCloseRepoSubscriptions "p" { activeNodes := [("p", { gen := 0, refCount := 2, listenersP2P := [], listenersLocal := [], streams := [] })], nextGen := 1, subscriptions := [(1, { topic := "t1", messageQueue := [], repoPath := "p" }), (2, { topic := "t2", messageQueue := [], repoPath := "p" })], nextSubID := 3 }).1 = 2 ∧
    rcOf "p" (pubSubCloseRepoSubscriptions "p" { activeNodes := [("p", { gen := 0, refCount := 2, listenersP2P := [], listenersLocal := [], streams := [] })], nextGen := 1, subscriptions := [(1, { topic := "t1", messageQueue := [], repoPath := "p" }), (2, { topic := "t2", messageQueue := [], repoPath := "p" })], nextSubID := 3 }).2.1 = 1 ∧
    ¬ (rcOf "p" (pubSubCloseRepoSubscriptions "p" { activeNodes := [("p", { gen := 0, refCount := 2, listenersP2P := [], listenersLocal := [], streams := [] })], nextGen := 1, subscriptions := [(1, { topic := "t1", messageQueue := [], repoPath := "p" }), (2, { topic := "t2", messageQueue := [], repoPath := "p" })], nextSubID := 3 }).2.1 = 2 - 2) := by
  decide

/-- C2 amended: after `PubSubCloseRepoSubscriptions(p)` no subscription
with owner path `p` remains registered and the return value is the
number N of subscriptions closed, but the node borrow is released exactly
once in total (one `ReleaseNode` call), so the node's reference count
decreases by exactly 1, not by N; for N ≥ 2 subscriptions that each
acquired once, N − 1 of their borrows remain outstanding. -/
theorem c2_close_repo_subscriptions_amended (path : String) (w : World)
    (ni : NodeInfo) (hn : lookupA path w.activeNodes = some ni)
    (hrc : 1 ≤ ni.refCount)
    (hsubs : 1 ≤ (w.subscriptions.filter fun p => p.2.repoPath = path).length) :
    ((pubSubCloseRepoSubscriptions path w).2.1.subscriptions.filter
      fun p => p.2.repoPath = path) = [] ∧
    (pubSubCloseRepoSubscriptions path w).1 =
      ((w.subscriptions.filter fun p => p.2.repoPath = path).length : Int) ∧
    releaseCalls (pubSubCloseRepoSubscriptions path w).2.2 = 1 ∧
    rcOf path (pubSubCloseRepoSubscriptions path w).2.1 = ni.refCount - 1 := by
  have hlen : ((w.subscriptions.filter fun p => p.2.repoPath = path).map Prod.fst).length ≠ 0 := by
    rw [List.length_map]
    omega
  refine ⟨?_, ?_, ?_, ?_⟩
  · unfold pubSubCloseRepoSubscriptions
    simp only [hlen, if_false]
    rw [releaseNode_subscriptions]
    rw [List.filter_eq_nil_iff]
    intro a ha
    have hmem := List.of_mem_filter ha
    simp at hmem ⊢
    exact hmem
  · unfold pubSubCloseRepoSubscriptions
    simp only [hlen, if_false]
    simp [List.length_map]
  · unfold pubSubCloseRepoSubscriptions
    simp only [hlen, if_false]
    rw [releaseCalls_append, noRelease_cancelFold, releaseCalls_releaseNode]
  · unfold pubSubCloseRepoSubscriptions
    simp only [hlen, if_false]
    exact rcOf_releaseNode path _ ni hn hrc

/-- C2 amended witness: the two-subscription world: both subscriptions
removed, return value 2, one release call, refcount 2 → 1. -/
theorem c2_close_repo_subscriptions_amended_witness :
    ((pubSubCloseRepoSubscriptions "p" { activeNodes := [("p", { gen := 0, refCount := 2, listenersP2P := [], listenersLocal := [], streams := [] })], nextGen := 1, subscriptions := [(1, { topic := "t1", messageQueue := [], repoPath := "p" }), (2, { topic := "t2", messageQueue := [], repoPath := "p" })], nextSubID := 3 }).2.1.subscriptions.filter fun p => p.2.repoPath = "p") = [] ∧
    releaseCalls (pubSubCloseRepoSubscriptions "p" { activeNodes := [("p", { gen := 0, refCount := 2, listenersP2P := [], listenersLocal := [], streams := [] })], nextGen := 1, subscriptions := [(1, { topic := "t1", messageQueue := [], repoPath := "p" }), (2, { topic := "t2", messageQueue := [], repoPath := "p" })], nextSubID := 3 }).2.2 = 1 ∧
    rcOf "p" (pubSubCloseRepoSubscriptions "p" { activeNodes := [("p", { gen := 0, refCount := 2, listenersP2P := [], listenersLocal := [], streams := [] })], nextGen := 1, subscriptions := [(1, { topic := "t1", messageQueue := [], repoPath := "p" }), (2, { topic := "t2", messageQueue := [], repoPath := "p" })], nextSubID := 3 }).2.1 = 2 - 1 := by
  have h := c2_close_repo_subscriptions_amended "p" { activeNodes := [("p", { gen := 0, refCount := 2, listenersP2P := [], listenersLocal := [], streams := [] })], nextGen := 1, subscriptions := [(1, { topic := "t1", messageQueue := [], repoPath := "p" }), (2, { topic := "t2", messageQueue := [], repoPath := "p" })], nextSubID := 3 } { gen := 0, refCount := 2, listenersP2P := [], listenersLocal := [], streams := [] } (by decide) (by decide) (by decide)
  exact ⟨h.1, h.2.2.1, h.2.2.2⟩

theorem rcOf_congr (path : String) (w1 w2 : World)
    (h : w1.activeNodes = w2.activeNodes) : rcOf path w1 = rcOf path w2 := by
  unfold rcOf
  rw [h]

/-- C4: when `PubSubSubscribe` acquires the node but opening the
runtime-level subscription fails, the just-acquired borrow is released
before returning: the result is the negative id `-2`, no subscription is
registered, the subscription id counter is untouched, and the node
registry (hence the node's reference count) is exactly what it was
before the call. -/
theorem c4_subscribe_failure_releases (path topic : String) (createOk : Bool)
    (w : World)
    (hacq : (lookupA path w.activeNodes).isSome = true ∨ createOk = true)
    (hrc : ∀ ni, lookupA path w.activeNodes = some ni → 1 ≤ ni.refCount) :
    (pubSubSubscribe path topic createOk false w).1 = -2 ∧
    (pubSubSubscribe path topic createOk false w).1 < 0 ∧
    (pubSubSubscribe path topic createOk false w).2.1.activeNodes = w.activeNodes ∧
    (pubSubSubscribe path topic createOk false w).2.1.subscriptions = w.subscriptions ∧
    (pubSubSubscribe path topic createOk false w).2.1.nextSubID = w.nextSubID ∧
    rcOf path (pubSubSubscribe path topic createOk false w).2.1 = rcOf path w := by
  cases hn : lookupA path w.activeNodes with
  | some ni =>
    have h1 : 1 ≤ ni.refCount := hrc ni hn
    have hacqEq : acquireNode path createOk w = (true, { w with activeNodes := updateA path (fun x => { x with refCount := x.refCount + 1 }) w.activeNodes }) := by
      unfold acquireNode
      rw [hn]
    have hlook2 : lookupA path (updateA path (fun x => { x with refCount := x.refCount + 1 }) w.activeNodes) = some { ni with refCount := ni.refCount + 1 } := by
      rw [lookupA_updateA_self, hn]
      rfl
    have hfix : updateA path (fun n => { n with refCount := n.refCount - 1 }) (updateA path (fun x => { x with refCount := x.refCount + 1 }) w.activeNodes) = w.activeNodes := by
      rw [updateA_updateA]
      apply updateA_of_fixed path _ _ ni hn
      have he : ni.refCount + 1 - 1 = ni.refCount := by omega
      show ({ ni with refCount := ni.refCount + 1 - 1 } : NodeInfo) = ni
      rw [he]
    have hrel : releaseNode path { w with activeNodes := updateA path (fun x => { x with refCount := x.refCount + 1 }) w.activeNodes } = (w, [Evt.releaseDec path]) := by
      unfold releaseNode
      simp only [hlook2]
      have hcond : ¬ (({ ni with refCount := ni.refCount + 1 } : NodeInfo).refCount - 1 ≤ 0) := by
        simp
        omega
      rw [if_neg hcond]
      simp [hfix]
    have hmain : pubSubSubscribe path topic createOk false w = (-2, w, [Evt.releaseDec path]) := by
      unfold pubSubSubscribe
      rw [hacqEq]
      simp only [Bool.false_eq_true, if_false]
      rw [hrel]
    rw [hmain]
    refine ⟨rfl, by norm_num, rfl, rfl, rfl, rfl⟩
  | none =>
    have hcOk : createOk = true := by
      rcases hacq with h | h
      · rw [hn] at h
        simp at h
      · exact h
    subst hcOk
    have hacqEq : acquireNode path true w = (true, { w with activeNodes := (path, { gen := w.nextGen, refCount := 1, listenersP2P := [], listenersLocal := [], streams := [] }) :: w.activeNodes, nextGen := w.nextGen + 1 }) := by
      unfold acquireNode
      rw [hn]
      rfl
    have hrel : releaseNode path { w with activeNodes := (path, { gen := w.nextGen, refCount := 1, listenersP2P := [], listenersLocal := [], streams := [] }) :: w.activeNodes, nextGen := w.nextGen + 1 } = ({ w with nextGen := w.nextGen + 1 }, [Evt.releaseDec path, Evt.closeNode w.nextGen]) := by
      unfold releaseNode
      have hl : lookupA path ((path, ({ gen := w.nextGen, refCount := 1, listenersP2P := [], listenersLocal := [], streams := [] } : NodeInfo)) :: w.activeNodes) = some { gen := w.nextGen, refCount := 1, listenersP2P := [], listenersLocal := [], streams := [] } := by
        simp [lookupA]
      simp only [hl]
      have her : eraseA path ((path, ({ gen := w.nextGen, refCount := 1, listenersP2P := [], listenersLocal := [], streams := [] } : NodeInfo)) :: w.activeNodes) = w.activeNodes := by
        simp [eraseA]
        exact eraseA_of_lookupA_none path w.activeNodes hn
      simp [her]
    have hmain : pubSubSubscribe path topic true false w = (-2, { w with nextGen := w.nextGen + 1 }, [Evt.releaseDec path, Evt.closeNode w.nextGen]) := by
      unfold pubSubSubscribe
      rw [hacqEq]
      simp only [Bool.false_eq_true, if_false]
      rw [hrel]
    rw [hmain]
    exact ⟨rfl, by norm_num, rfl, rfl, rfl, rfl⟩

/-- C4 witness: a world with a registered node at refcount 1: the failed
subscribe returns `-2` and the registry is exactly as before. -/
theorem c4_subscribe_failure_releases_witness :
    (pubSubSubscribe "p" "t" true false { activeNodes := [("p", { gen := 0, refCount := 1, listenersP2P := [], listenersLocal := [], streams := [] })], nextGen := 1, subscriptions := [], nextSubID := 1 }).1 = -2 ∧
    (pubSubSubscribe "p" "t" true false { activeNodes := [("p", { gen := 0, refCount := 1, listenersP2P := [], listenersLocal := [], streams := [] })], nextGen := 1, subscriptions := [], nextSubID := 1 }).2.1.activeNodes = [("p", { gen := 0, refCount := 1, listenersP2P := [], listenersLocal := [], streams := [] })] := by
  have h := c4_subscribe_failure_releases "p" "t" true { activeNodes := [("p", { gen := 0, refCount := 1, listenersP2P := [], listenersLocal := [], streams := [] })], nextGen := 1, subscriptions := [], nextSubID := 1 } (Or.inl (by decide)) (by decide)
  exact ⟨h.1, h.2.2.1⟩

/-- C5: `PubSubUnsubscribe` on an unknown id returns `-1` and leaves the
whole state untouched; on a registered id it signals cancellation, closes
the runtime subscription, releases the borrowed node exactly once
(refcount drops by exactly 1), removes the subscription and returns 0 —
so a second call with the same id returns `-1` and changes nothing. -/
theorem c5_unsubscribe (id : Int) (w : World) (si : SubscriptionInfo)
    (ni : NodeInfo)
    (hs : lookupA id w.subscriptions = some si)
    (hn : lookupA si.repoPath w.activeNodes = some ni)
    (hrc : 1 ≤ ni.refCount) :
    (∀ w', lookupA id w'.subscriptions = none →
      pubSubUnsubscribe id w' = (-1, w', [])) ∧
    (pubSubUnsubscribe id w).1 = 0 ∧
    lookupA id (pubSubUnsubscribe id w).2.1.subscriptions = none ∧
    rcOf si.repoPath (pubSubUnsubscribe id w).2.1 = ni.refCount - 1 ∧
    releaseCalls (pubSubUnsubscribe id w).2.2 = 1 ∧
    Evt.cancelSub id ∈ (pubSubUnsubscribe id w).2.2 ∧
    Evt.closeRuntimeSub id ∈ (pubSubUnsubscribe id w).2.2 ∧
    (pubSubUnsubscribe id (pubSubUnsubscribe id w).2.1).1 = -1 ∧
    (pubSubUnsubscribe id (pubSubUnsubscribe id w).2.1).2.1 =
      (pubSubUnsubscribe id w).2.1 := by
  have hunk : ∀ w', lookupA id w'.subscriptions = none →
      pubSubUnsubscribe id w' = (-1, w', []) := by
    intro w' h
    unfold pubSubUnsubscribe
    rw [h]
  rcases hr : releaseNode si.repoPath w with ⟨w1, evts⟩
  have hmain : pubSubUnsubscribe id w = (0, { w1 with subscriptions := eraseA id w1.subscriptions }, [Evt.cancelSub id, Evt.closeRuntimeSub id] ++ evts) := by
    unfold pubSubUnsubscribe
    simp only [hs, hr]
  have hrc1 : rcOf si.repoPath w1 = ni.refCount - 1 := by
    have h := rcOf_releaseNode si.repoPath w ni hn hrc
    rw [hr] at h
    exact h
  have hcount : releaseCalls evts = 1 := by
    have h := releaseCalls_releaseNode si.repoPath w
    rw [hr] at h
    exact h
  have herased : lookupA id (pubSubUnsubscribe id w).2.1.subscriptions = none := by
    rw [hmain]
    exact lookupA_eraseA_self id w1.subscriptions
  refine ⟨hunk, by rw [hmain], herased, ?_, ?_, ?_, ?_, ?_, ?_⟩
  · rw [hmain]
    exact (rcOf_congr si.repoPath _ w1 rfl).trans hrc1
  · rw [hmain]
    show releaseCalls ([Evt.cancelSub id, Evt.closeRuntimeSub id] ++ evts) = 1
    rw [releaseCalls_append, hcount]
    rfl
  · rw [hmain]
    simp
  · rw [hmain]
    simp
  · rw [hunk _ herased]
  · rw [hunk _ herased]

/-- C5 witness: a world with one node (refcount 1) and one subscription:
the first unsubscribe returns 0 and removes everything, the second
returns `-1` without further change. -/
theorem c5_unsubscribe_witness :
    (pubSubUnsubscribe 1 { activeNodes := [("p", { gen := 0, refCount := 1, listenersP2P := [], listenersLocal := [], streams := [] })], nextGen := 1, subscriptions := [(1, { topic := "t", messageQueue := [], repoPath := "p" })], nextSubID := 2 }).1 = 0 ∧
    rcOf "p" (pubSubUnsubscribe 1 { activeNodes := [("p", { gen := 0, refCount := 1, listenersP2P := [], listenersLocal := [], streams := [] })], nextGen := 1, subscriptions := [(1, { topic := "t", messageQueue := [], repoPath := "p" })], nextSubID := 2 }).2.1 = 0 ∧
    (pubSubUnsubscribe 1 (pubSubUnsubscribe 1 { activeNodes := [("p", { gen := 0, refCount := 1, listenersP2P := [], listenersLocal := [], streams := [] })], nextGen := 1, subscriptions := [(1, { topic := "t", messageQueue := [], repoPath := "p" })], nextSubID := 2 }).2.1).1 = -1 := by
  have h := c5_unsubscribe 1 { activeNodes := [("p", { gen := 0, refCount := 1, listenersP2P := [], listenersLocal := [], streams := [] })], nextGen := 1, subscriptions := [(1, { topic := "t", messageQueue := [], repoPath := "p" })], nextSubID := 2 } { topic := "t", messageQueue := [], repoPath := "p" } { gen := 0, refCount := 1, listenersP2P := [], listenersLocal := [], streams := [] } (by decide) (by decide) (by decide)
  exact ⟨h.2.1, h.2.2.2.1, h.2.2.2.2.2.2.2.1⟩

theorem acquireNode_subscriptions (path : String) (c : Bool) (w : World) :
    (acquireNode path c w).2.subscriptions = w.subscriptions := by
  unfold acquireNode
  cases h : lookupA path w.activeNodes with
  | none => cases c <;> simp
  | some ni => simp

theorem stageFilter_p2pCloseAllListeners (path : String) (c : Bool) (w : World) :
    (p2pCloseAllListeners path c w).2.2.filter isStageEvt = [] := by
  unfold p2pCloseAllListeners
  rcases ha : acquireNode path c w with ⟨b, w'⟩
  cases b with
  | false => simp
  | true =>
    cases hl : lookupA path w'.activeNodes with
    | none => simp [hl]
    | some ni =>
      simp only [hl]
      rcases hr : releaseNode path { w' with activeNodes := updateA path (fun n => { n with listenersP2P := [] }) w'.activeNodes } with ⟨w'', e⟩
      have h := stageFilter_releaseNode path { w' with activeNodes := updateA path (fun n => { n with listenersP2P := [] }) w'.activeNodes }
      rw [hr] at h
      simpa using h

theorem stageFilter_p2pCloseAllForwards (path : String) (c : Bool) (w : World) :
    (p2pCloseAllForwards path c w).2.2.filter isStageEvt = [] := by
  unfold p2pCloseAllForwards
  rcases ha : acquireNode path c w with ⟨b, w'⟩
  cases b with
  | false => simp
  | true =>
    cases hl : lookupA path w'.activeNodes with
    | none => simp [hl]
    | some ni =>
      simp only [hl]
      rcases hr : releaseNode path { w' with activeNodes := updateA path (fun n => { n with listenersLocal := [], streams := [] }) w'.activeNodes } with ⟨w'', e⟩
      have h := stageFilter_releaseNode path { w' with activeNodes := updateA path (fun n => { n with listenersLocal := [], streams := [] }) w'.activeNodes }
      rw [hr] at h
      simpa using h

theorem p2pCloseAllListeners_subscriptions (path : String) (c : Bool) (w : World) :
    (p2pCloseAllListeners path c w).2.1.subscriptions = w.subscriptions := by
  unfold p2pCloseAllListeners
  rcases ha : acquireNode path c w with ⟨b, w'⟩
  have hsub : w'.subscriptions = w.subscriptions := by
    have h := acquireNode_subscriptions path c w
    rw [ha] at h
    exact h
  cases b with
  | false => simpa using hsub
  | true =>
    cases hl : lookupA path w'.activeNodes with
    | none => simpa [hl] using hsub
    | some ni =>
      simp only [hl]
      rcases hr : releaseNode path { w' with activeNodes := updateA path (fun n => { n with listenersP2P := [] }) w'.activeNodes } with ⟨w'', e⟩
      have h := releaseNode_subscriptions path { w' with activeNodes := updateA path (fun n => { n with listenersP2P := [] }) w'.activeNodes }
      rw [hr] at h
      exact h.trans hsub

theorem p2pCloseAllForwards_subscriptions (path : String) (c : Bool) (w : World) :
    (p2pCloseAllForwards path c w).2.1.subscriptions = w.subscriptions := by
  unfold p2pCloseAllForwards
  rcases ha : acquireNode path c w with ⟨b, w'⟩
  have hsub : w'.subscriptions = w.subscriptions := by
    have h := acquireNode_subscriptions path c w
    rw [ha] at h
    exact h
  cases b with
  | false => simpa using hsub
  | true =>
    cases hl : lookupA path w'.activeNodes with
    | none => simpa [hl] using hsub
    | some ni =>
      simp only [hl]
      rcases hr : releaseNode path { w' with activeNodes := updateA path (fun n => { n with listenersLocal := [], streams := [] }) w'.activeNodes } with ⟨w'', e⟩
      have h := releaseNode_subscriptions path { w' with activeNodes := updateA path (fun n => { n with listenersLocal := [], streams := [] }) w'.activeNodes }
      rw [hr] at h
      exact h.trans hsub

theorem closeRepoSubs_filter_nil (path : String) (w : World) :
    ((pubSubCloseRepoSubscriptions path w).2.1.subscriptions.filter
      fun p => p.2.repoPath = path) = [] := by
  unfold pubSubCloseRepoSubscriptions
  by_cases h : ((w.subscriptions.filter fun p => p.2.repoPath = path).map Prod.fst).length = 0
  · have hnil : (w.subscriptions.filter fun p => p.2.repoPath = path) = [] := by
      rw [List.length_map] at h
      exact List.length_eq_zero.mp h
    simp [h, hnil]
  · simp only [h, if_false]
    rw [releaseNode_subscriptions]
    rw [List.filter_eq_nil_iff]
    intro a ha
    have hmem := List.of_mem_filter ha
    simp at hmem ⊢
    exact hmem

theorem stageFilter_cleanupStages (path : String) (c : Bool) (w : World) :
    (cleanupStages path c w).2.filter isStageEvt =
      [Evt.stageListeners path, Evt.stageForwards path, Evt.stageSubs path] := by
  unfold cleanupStages
  rcases h1 : p2pCloseAllListeners path c w with ⟨r1, w1, e1⟩
  rcases h2 : p2pCloseAllForwards path c w1 with ⟨r2, w2, e2⟩
  rcases h3 : pubSubCloseRepoSubscriptions path w2 with ⟨r3, w3, e3⟩
  simp only [h1, h2, h3]
  have f1 : e1.filter isStageEvt = [] := by
    have h := stageFilter_p2pCloseAllListeners path c w
    rw [h1] at h
    exact h
  have f2 : e2.filter isStageEvt = [] := by
    have h := stageFilter_p2pCloseAllForwards path c w1
    rw [h2] at h
    exact h
  have f3 : e3.filter isStageEvt = [] := by
    have h := stageFilter_closeRepoSubs path w2
    rw [h3] at h
    exact h
  simp [List.filter_append, f1, f2, f3, isStageEvt]

theorem cleanupStages_subs_filter_nil (path : String) (c : Bool) (w : World) :
    ((cleanupStages path c w).1.subscriptions.filter
      fun p => p.2.repoPath = path) = [] := by
  unfold cleanupStages
  rcases h1 : p2pCloseAllListeners path c w with ⟨r1, w1, e1⟩
  rcases h2 : p2pCloseAllForwards path c w1 with ⟨r2, w2, e2⟩
  rcases h3 : pubSubCloseRepoSubscriptions path w2 with ⟨r3, w3, e3⟩
  simp only [h1, h2, h3]
  have h := closeRepoSubs_filter_nil path w2
  rw [h3] at h
  exact h

/-- C6: `CleanupNode(path)` performs its teardown stages in the strict
source order — close all P2P listeners, then all forwards, then all
subscriptions for the path (after which none with that owner path
remain) — and only then force-closes and deletes the node regardless of
its remaining refcount; when no node is registered at that final step it
reports `-1` ("nothing to clean up") without undoing the earlier
stages. -/
theorem c6_cleanup_order (path : String) (createOk : Bool) (w : World) :
    ((cleanupNode path createOk w).2.2.filter isStageEvt =
      [Evt.stageListeners path, Evt.stageForwards path, Evt.stageSubs path] ++
      (if lookupA path (cleanupStages path createOk w).1.activeNodes = none
       then [Evt.stageNothing path] else [Evt.stageForce path])) ∧
    lookupA path (cleanupNode path createOk w).2.1.activeNodes = none ∧
    (lookupA path (cleanupStages path createOk w).1.activeNodes = none →
      (cleanupNode path createOk w).1 = -1 ∧
      (cleanupNode path createOk w).2.1 = (cleanupStages path createOk w).1) ∧
    (∀ ni, lookupA path (cleanupStages path createOk w).1.activeNodes = some ni →
      (cleanupNode path createOk w).1 = 0 ∧
      Evt.closeNode ni.gen ∈ (cleanupNode path createOk w).2.2) ∧
    ((cleanupNode path createOk w).2.1.subscriptions.filter
      fun p => p.2.repoPath = path) = [] := by
  rcases hst : cleanupStages path createOk w with ⟨w3, evts⟩
  have hmark : evts.filter isStageEvt =
      [Evt.stageListeners path, Evt.stageForwards path, Evt.stageSubs path] := by
    have h := stageFilter_cleanupStages path createOk w
    rw [hst] at h
    exact h
  have hsubs3 : (w3.subscriptions.filter fun p => p.2.repoPath = path) = [] := by
    have h := cleanupStages_subs_filter_nil path createOk w
    rw [hst] at h
    exact h
  cases hl : lookupA path w3.activeNodes with
  | none =>
    have hmain : cleanupNode path createOk w = (-1, w3, evts ++ [Evt.stageNothing path]) := by
      unfold cleanupNode
      rw [hst]
      simp only [hl]
    rw [hmain]
    refine ⟨?_, hl, fun _ => ⟨rfl, rfl⟩, ?_, hsubs3⟩
    · simp [List.filter_append, hmark, isStageEvt, hl]
    · intro ni hni
      simp at hni
  | some ni0 =>
    have hmain : cleanupNode path createOk w = (0, { w3 with activeNodes := eraseA path w3.activeNodes }, evts ++ [Evt.stageForce path, Evt.closeNode ni0.gen]) := by
      unfold cleanupNode
      rw [hst]
      simp only [hl]
    rw [hmain]
    refine ⟨?_, ?_, ?_, ?_, hsubs3⟩
    · simp [List.filter_append, hmark, isStageEvt, hl]
    · exact lookupA_eraseA_self path w3.activeNodes
    · intro hcon
      simp at hcon
    · intro ni hni
      injection hni with hinj
      subst hinj
      exact ⟨rfl, by simp⟩

/-- C6 witness: cleaning up a world with a registered node (refcount 2)
and two subscriptions: the stage logs appear in order ending with the
force-close, the node is gone afterwards, and the result is 0; on the
empty world the final step reports `-1`. -/
theorem c6_cleanup_order_witness :
    (cleanupNode "p" true { activeNodes := [("p", { gen := 0, refCount := 2, listenersP2P := [], listenersLocal := [], streams := [] })], nextGen := 1, subscriptions := [(1, { topic := "t1", messageQueue := [], repoPath := "p" }), (2, { topic := "t2", messageQueue := [], repoPath := "p" })], nextSubID := 3 }).2.2.filter isStageEvt = [Evt.stageListeners "p", Evt.stageForwards "p", Evt.stageSubs "p", Evt.stageForce "p"] ∧
    lookupA "p" (cleanupNode "p" true { activeNodes := [("p", { gen := 0, refCount := 2, listenersP2P := [], listenersLocal := [], streams := [] })], nextGen := 1, subscriptions := [(1, { topic := "t1", messageQueue := [], repoPath := "p" }), (2, { topic := "t2", messageQueue := [], repoPath := "p" })], nextSubID := 3 }).2.1.activeNodes = none ∧
    (cleanupNode "q" true World.empty).1 = -1 := by
  have h1 := c6_cleanup_order "p" true { activeNodes := [("p", { gen := 0, refCount := 2, listenersP2P := [], listenersLocal := [], streams := [] })], nextGen := 1, subscriptions := [(1, { topic := "t1", messageQueue := [], repoPath := "p" }), (2, { topic := "t2", messageQueue := [], repoPath := "p" })], nextSubID := 3 }
  have h2 := c6_cleanup_order "q" true World.empty
  refine ⟨?_, h1.2.1, (h2.2.2.1 (by decide)).1⟩
  rw [h1.1]
  decide

/-- Invariant of the node registry under any sequence of
`AcquireNode(path)`/`ReleaseNode(path)` calls: generations of closed
nodes are never repeated (no node instance is closed twice), a
registered node is open (refcount ≥ 1) with an unclosed, in-range
generation, no-op releases never outnumber release calls, and the
registered refcount (0 when absent) satisfies
`rc + releases = rc₀ + successfulAcquires + noopReleases`. -/
theorem runRegOps_invariant (path : String) :
    ∀ (ops : List RegOp) (w : World) (closed : List Nat),
      closed.Nodup →
      (∀ g ∈ closed, g < w.nextGen) →
      (∀ ni, lookupA path w.activeNodes = some ni →
        1 ≤ ni.refCount ∧ ni.gen ∉ closed ∧ ni.gen < w.nextGen) →
      w.nextGen ≤ (runRegOps path ops w).world.nextGen ∧
      (closed ++ closedGens (runRegOps path ops w).trace).Nodup ∧
      (∀ g ∈ closed ++ closedGens (runRegOps path ops w).trace,
        g < (runRegOps path ops w).world.nextGen) ∧
      (∀ ni, lookupA path (runRegOps path ops w).world.activeNodes = some ni →
        1 ≤ ni.refCount ∧
        ni.gen ∉ closed ++ closedGens (runRegOps path ops w).trace ∧
        ni.gen < (runRegOps path ops w).world.nextGen) ∧
      noopReleases (runRegOps path ops w).trace ≤ (runRegOps path ops w).relCalls ∧
      rcOf path (runRegOps path ops w).world + ((runRegOps path ops w).relCalls : Int) =
        rcOf path w + ((runRegOps path ops w).acqOk : Int) +
          (noopReleases (runRegOps path ops w).trace : Int) := by
  intro ops
  induction ops with
  | nil =>
    intro w closed hnd hlt hent
    refine ⟨le_refl _, by simpa [runRegOps, closedGens] using hnd, ?_, ?_, by simp [runRegOps, noopReleases], by simp [runRegOps, noopReleases]⟩
    · intro g hg
      simp [runRegOps, closedGens] at hg
      exact hlt g hg
    · intro ni hni
      have h := hent ni hni
      simpa [runRegOps, closedGens] using h
  | cons op rest ih =>
    intro w closed hnd hlt hent
    cases op with
    | acq ok =>
      cases hlk : lookupA path w.activeNodes with
      | some ni =>
        obtain ⟨hrc, hgc, hgn⟩ := hent ni hlk
        have hacq : acquireNode path ok w = (true, { w with activeNodes := updateA path (fun x => { x with refCount := x.refCount + 1 }) w.activeNodes }) := by
          unfold acquireNode
          rw [hlk]
        have hrun : runRegOps path (RegOp.acq ok :: rest) w = { runRegOps path rest { w with activeNodes := updateA path (fun x => { x with refCount := x.refCount + 1 }) w.activeNodes } with acqOk := 1 + (runRegOps path rest { w with activeNodes := updateA path (fun x => { x with refCount := x.refCount + 1 }) w.activeNodes }).acqOk } := by
          simp only [runRegOps, hacq, if_true]
        have hent' : ∀ ni', lookupA path ({ w with activeNodes := updateA path (fun x => { x with refCount := x.refCount + 1 }) w.activeNodes } : World).activeNodes = some ni' → 1 ≤ ni'.refCount ∧ ni'.gen ∉ closed ∧ ni'.gen < ({ w with activeNodes := updateA path (fun x => { x with refCount := x.refCount + 1 }) w.activeNodes } : World).nextGen := by
          intro ni' hni'
          simp only [lookupA_updateA_self, hlk] at hni'
          have : ni' = { ni with refCount := ni.refCount + 1 } := by
            injection hni' with h
            exact h.symm
          subst this
          exact ⟨by simp; omega, hgc, hgn⟩
        obtain ⟨g1, g2, g3, g4, g5, g6⟩ := ih { w with activeNodes := updateA path (fun x => { x with refCount := x.refCount + 1 }) w.activeNodes } closed hnd hlt hent'
        rw [hrun]
        have hrc' : rcOf path { w with activeNodes := updateA path (fun x => { x with refCount := x.refCount + 1 }) w.activeNodes } = rcOf path w + 1 := by
          simp [rcOf, lookupA_updateA_self, hlk]
        refine ⟨g1, g2, g3, g4, g5, ?_⟩
        simp only []
        rw [hrc'] at g6
        push_cast at g6 ⊢
        omega
      | none =>
        cases ok with
        | true =>
          have hacq : acquireNode path true w = (true, { w with activeNodes := (path, { gen := w.nextGen, refCount := 1, listenersP2P := [], listenersLocal := [], streams := [] }) :: w.activeNodes, nextGen := w.nextGen + 1 }) := by
            unfold acquireNode
            rw [hlk]
            rfl
          have hrun : runRegOps path (RegOp.acq true :: rest) w = { runRegOps path rest { w with activeNodes := (path, { gen := w.nextGen, refCount := 1, listenersP2P := [], listenersLocal := [], streams := [] }) :: w.activeNodes, nextGen := w.nextGen + 1 } with acqOk := 1 + (runRegOps path rest { w with activeNodes := (path, { gen := w.nextGen, refCount := 1, listenersP2P := [], listenersLocal := [], streams := [] }) :: w.activeNodes, nextGen := w.nextGen + 1 }).acqOk } := by
            simp only [runRegOps, hacq, if_true]
          have hlt' : ∀ g ∈ closed, g < w.nextGen + 1 := fun g hg => Nat.lt_succ_of_lt (hlt g hg)
          have hent' : ∀ ni', lookupA path ({ w with activeNodes := (path, { gen := w.nextGen, refCount := 1, listenersP2P := [], listenersLocal := [], streams := [] }) :: w.activeNodes, nextGen := w.nextGen + 1 } : World).activeNodes = some ni' → 1 ≤ ni'.refCount ∧ ni'.gen ∉ closed ∧ ni'.gen < w.nextGen + 1 := by
            intro ni' hni'
            simp only [lookupA, if_pos rfl] at hni'
            have : ni' = { gen := w.nextGen, refCount := 1, listenersP2P := [], listenersLocal := [], streams := [] } := by
              injection hni' with h
              exact h.symm
            subst this
            refine ⟨by norm_num, ?_, by simp⟩
            intro hmem
            exact absurd (hlt _ hmem) (lt_irrefl _)
          obtain ⟨g1, g2, g3, g4, g5, g6⟩ := ih { w with activeNodes := (path, { gen := w.nextGen, refCount := 1, listenersP2P := [], listenersLocal := [], streams := [] }) :: w.activeNodes, nextGen := w.nextGen + 1 } closed hnd hlt' hent'
          rw [hrun]
          refine ⟨le_trans (Nat.le_succ _) g1, g2, g3, g4, g5, ?_⟩
          have hrc0 : rcOf path w = 0 := by
            unfold rcOf
            rw [hlk]
          have hrc1 : rcOf path { w with activeNodes := (path, { gen := w.nextGen, refCount := 1, listenersP2P := [], listenersLocal := [], streams := [] }) :: w.activeNodes, nextGen := w.nextGen + 1 } = 1 := by
            unfold rcOf
            simp [lookupA]
          rw [hrc1] at g6
          simp only []
          rw [hrc0]
          push_cast at g6 ⊢
          omega
        | false =>
          have hacq : acquireNode path false w = (false, w) := by
            unfold acquireNode
            rw [hlk]
            rfl
          have hrun : runRegOps path (RegOp.acq false :: rest) w = { runRegOps path rest w with acqOk := 0 + (runRegOps path rest w).acqOk } := by
            simp [runRegOps, hacq]
          obtain ⟨g1, g2, g3, g4, g5, g6⟩ := ih w closed hnd hlt hent
          rw [hrun]
          refine ⟨g1, g2, g3, g4, g5, ?_⟩
          simp only []
          push_cast at g6 ⊢
          omega
    | rel =>
      cases hlk : lookupA path w.activeNodes with
      | none =>
        have hrel : releaseNode path w = (w, [Evt.releaseMissing path]) := by
          unfold releaseNode
          rw [hlk]
        have hrun : runRegOps path (RegOp.rel :: rest) w = { runRegOps path rest w with trace := [Evt.releaseMissing path] ++ (runRegOps path rest w).trace, relCalls := (runRegOps path rest w).relCalls + 1 } := by
          simp only [runRegOps, hrel]
        obtain ⟨g1, g2, g3, g4, g5, g6⟩ := ih w closed hnd hlt hent
        rw [hrun]
        have hcg : closedGens ([Evt.releaseMissing path] ++ (runRegOps path rest w).trace) = closedGens (runRegOps path rest w).trace := by
          simp [closedGens]
        have hnr : noopReleases ([Evt.releaseMissing path] ++ (runRegOps path rest w).trace) = noopReleases (runRegOps path rest w).trace + 1 := by
          simp [noopReleases, List.filter_append, List.length_append]
        refine ⟨g1, ?_, ?_, ?_, ?_, ?_⟩
        · simpa [hcg] using g2
        · simpa [hcg] using g3
        · intro ni hni
          simpa [hcg] using g4 ni hni
        · simp only [hcg, hnr]
          omega
        · simp only [hcg, hnr]
          push_cast
          omega
      | some ni =>
        obtain ⟨hrc, hgc, hgn⟩ := hent ni hlk
        by_cases hz : ni.refCount - 1 ≤ 0
        · have hrel : releaseNode path w = ({ w with activeNodes := eraseA path w.activeNodes }, [Evt.releaseDec path, Evt.closeNode ni.gen]) := by
            unfold releaseNode
            simp only [hlk]
            rw [if_pos hz]
          have hrun : runRegOps path (RegOp.rel :: rest) w = { runRegOps path rest { w with activeNodes := eraseA path w.activeNodes } with trace := [Evt.releaseDec path, Evt.closeNode ni.gen] ++ (runRegOps path rest { w with activeNodes := eraseA path w.activeNodes }).trace, relCalls := (runRegOps path rest { w with activeNodes := eraseA path w.activeNodes }).relCalls + 1 } := by
            simp only [runRegOps, hrel]
          have hnd' : (closed ++ [ni.gen]).Nodup := by
            rw [List.nodup_append]
            exact ⟨hnd, List.nodup_singleton _, by simpa using hgc⟩
          have hlt' : ∀ g ∈ closed ++ [ni.gen], g < w.nextGen := by
            intro g hg
            rcases List.mem_append.mp hg with h | h
            · exact hlt g h
            · simp at h
              subst h
              exact hgn
          have hent' : ∀ ni', lookupA path ({ w with activeNodes := eraseA path w.activeNodes } : World).activeNodes = some ni' → 1 ≤ ni'.refCount ∧ ni'.gen ∉ closed ++ [ni.gen] ∧ ni'.gen < w.nextGen := by
            intro ni' hni'
            rw [show ({ w with activeNodes := eraseA path w.activeNodes } : World).activeNodes = eraseA path w.activeNodes from rfl, lookupA_eraseA_self] at hni'
            simp at hni'
          obtain ⟨g1, g2, g3, g4, g5, g6⟩ := ih { w with activeNodes := eraseA path w.activeNodes } (closed ++ [ni.gen]) hnd' hlt' hent'
          rw [hrun]
          have hcg : closedGens ([Evt.releaseDec path, Evt.closeNode ni.gen] ++ (runRegOps path rest { w with activeNodes := eraseA path w.activeNodes }).trace) = ni.gen :: closedGens (runRegOps path rest { w with activeNodes := eraseA path w.activeNodes }).trace := by
            simp [closedGens]
          have hnr : noopReleases ([Evt.releaseDec path, Evt.closeNode ni.gen] ++ (runRegOps path rest { w with activeNodes := eraseA path w.activeNodes }).trace) = noopReleases (runRegOps path rest { w with activeNodes := eraseA path w.activeNodes }).trace := by
            simp [noopReleases, List.filter_append]
          have hassoc : closed ++ ni.gen :: closedGens (runRegOps path rest { w with activeNodes := eraseA path w.activeNodes }).trace = (closed ++ [ni.gen]) ++ closedGens (runRegOps path rest { w with activeNodes := eraseA path w.activeNodes }).trace := by
            simp
          have hrcE : rcOf path { w with activeNodes := eraseA path w.activeNodes } = 0 := by
            unfold rcOf
            rw [show ({ w with activeNodes := eraseA path w.activeNodes } : World).activeNodes = eraseA path w.activeNodes from rfl, lookupA_eraseA_self]
          have hrcW : rcOf path w = ni.refCount := by
            unfold rcOf
            rw [hlk]
          have hone : ni.refCount = 1 := le_antisymm (by omega) hrc
          refine ⟨g1, ?_, ?_, ?_, ?_, ?_⟩
          · simp only [hcg, hassoc]
            exact g2
          · simp only [hcg, hassoc]
            exact g3
          · intro ni' hni'
            have h := g4 ni' hni'
            simp only [hcg, hassoc]
            exact h
          · simp only [hcg, hnr]
            omega
          · simp only [hcg, hnr]
            rw [hrcE] at g6
            rw [hrcW, hone]
            push_cast
            omega
        · have hrel : releaseNode path w = ({ w with activeNodes := updateA path (fun n => { n with refCount := n.refCount - 1 }) w.activeNodes }, [Evt.releaseDec path]) := by
            unfold releaseNode
            simp only [hlk]
            rw [if_neg hz]
          have hrun : runRegOps path (RegOp.rel :: rest) w = { runRegOps path rest { w with activeNodes := updateA path (fun n => { n with refCount := n.refCount - 1 }) w.activeNodes } with trace := [Evt.releaseDec path] ++ (runRegOps path rest { w with activeNodes := updateA path (fun n => { n with refCount := n.refCount - 1 }) w.activeNodes }).trace, relCalls := (runRegOps path rest { w with activeNodes := updateA path (fun n => { n with refCount := n.refCount - 1 }) w.activeNodes }).relCalls + 1 } := by
            simp only [runRegOps, hrel]
          have hent' : ∀ ni', lookupA path ({ w with activeNodes := updateA path (fun n => { n with refCount := n.refCount - 1 }) w.activeNodes } : World).activeNodes = some ni' → 1 ≤ ni'.refCount ∧ ni'.gen ∉ closed ∧ ni'.gen < w.nextGen := by
            intro ni' hni'
            rw [show ({ w with activeNodes := updateA path (fun n => { n with refCount := n.refCount - 1 }) w.activeNodes } : World).activeNodes = updateA path (fun n => { n with refCount := n.refCount - 1 }) w.activeNodes from rfl, lookupA_updateA_self, hlk] at hni'
            have : ni' = { ni with refCount := ni.refCount - 1 } := by
              injection hni' with h
              exact h.symm
            subst this
            exact ⟨by simp; omega, hgc, hgn⟩
          obtain ⟨g1, g2, g3, g4, g5, g6⟩ := ih { w with activeNodes := updateA path (fun n => { n with refCount := n.refCount - 1 }) w.activeNodes } closed hnd hlt hent'
          rw [hrun]
          have hcg : closedGens ([Evt.releaseDec path] ++ (runRegOps path rest { w with activeNodes := updateA path (fun n => { n with refCount := n.refCount - 1 }) w.activeNodes }).trace) = closedGens (runRegOps path rest { w with activeNodes := updateA path (fun n => { n with refCount := n.refCount - 1 }) w.activeNodes }).trace := by
            simp [closedGens]
          have hnr : noopReleases ([Evt.releaseDec path] ++ (runRegOps path rest { w with activeNodes := updateA path (fun n => { n with refCount := n.refCount - 1 }) w.activeNodes }).trace) = noopReleases (runRegOps path rest { w with activeNodes := updateA path (fun n => { n with refCount := n.refCount - 1 }) w.activeNodes }).trace := by
            simp [noopReleases, List.filter_append]
          have hrcU : rcOf path { w with activeNodes := updateA path (fun n => { n with refCount := n.refCount - 1 }) w.activeNodes } = ni.refCount - 1 := by
            unfold rcOf
            rw [show ({ w with activeNodes := updateA path (fun n => { n with refCount := n.refCount - 1 }) w.activeNodes } : World).activeNodes = updateA path (fun n => { n with refCount := n.refCount - 1 }) w.activeNodes from rfl, lookupA_updateA_self, hlk]
            rfl
          have hrcW : rcOf path w = ni.refCount := by
            unfold rcOf
            rw [hlk]
          refine ⟨g1, ?_, ?_, ?_, ?_, ?_⟩
          · simpa [hcg] using g2
          · simpa [hcg] using g3
          · intro ni' hni'
            simpa [hcg] using g4 ni' hni'
          · simp only [hcg, hnr]
            omega
          · simp only [hcg, hnr]
            rw [hrcU] at g6
            rw [hrcW]
            push_cast
            omega

/-- C1 counterexample: after the call sequence `ReleaseNode("p")` (a
reported no-op) then `AcquireNode("p")`, the registry contains an entry
for "p" although the number of successful acquires (1) does not exceed
the number of releases (1) — the claim's iff counts the no-op release. -/
theorem c1_counterexample :
    ((lookupA "p" (runRegOps "p" [RegOp.rel, RegOp.acq true] World.empty).world.activeNodes).isSome = true) ∧
    ¬ ((runRegOps "p" [RegOp.rel, RegOp.acq true] World.empty).relCalls <
       (runRegOps "p" [RegOp.rel, RegOp.acq true] World.empty).acqOk) := by
  decide

/-- C1 amended: for every path and every finite sequence of
`AcquireNode(p)`/`ReleaseNode(p)` calls, the registry contains an entry
for `p` iff the number of successful acquires exceeds the number of
*effective* releases (release calls minus the reported no-op releases on
an unregistered path); a release on an unregistered path is exactly the
reported no-op, and no node instance is ever closed twice (the closed
generations are pairwise distinct). -/
theorem c1_refcount_invariant_amended (path : String) (ops : List RegOp) :
    ((lookupA path (runRegOps path ops World.empty).world.activeNodes).isSome = true ↔
      (runRegOps path ops World.empty).relCalls -
        noopReleases (runRegOps path ops World.empty).trace <
        (runRegOps path ops World.empty).acqOk) ∧
    (closedGens (runRegOps path ops World.empty).trace).Nodup ∧
    (∀ w, lookupA path w.activeNodes = none →
      releaseNode path w = (w, [Evt.releaseMissing path])) := by
  obtain ⟨g1, g2, g3, g4, g5, g6⟩ :=
    runRegOps_invariant path ops World.empty [] List.nodup_nil
      (by intro g hg; simp at hg)
      (by intro ni hni; simp [World.empty, lookupA] at hni)
  have hrc0 : rcOf path World.empty = 0 := rfl
  rw [hrc0] at g6
  refine ⟨?_, by simpa using g2, ?_⟩
  · constructor
    · intro hsome
      obtain ⟨ni, hni⟩ := Option.isSome_iff_exists.mp hsome
      obtain ⟨hge, _, _⟩ := g4 ni hni
      have hrcEq : rcOf path (runRegOps path ops World.empty).world = ni.refCount := by
        simp [rcOf, hni]
      rw [hrcEq] at g6
      omega
    · intro hlt
      cases hni : lookupA path (runRegOps path ops World.empty).world.activeNodes with
      | some ni => simp
      | none =>
        have hrcEq : rcOf path (runRegOps path ops World.empty).world = 0 := by
          simp [rcOf, hni]
        rw [hrcEq] at g6
        omega
  · intro w hw
    unfold releaseNode
    rw [hw]

/-- C1 amended witness: acquiring twice then releasing once leaves the
entry registered (2 successful acquires > 1 effective release); a
further release removes it (2 = 2); releasing on the empty registry is
the reported no-op. -/
theorem c1_refcount_invariant_amended_witness :
    ((lookupA "p" (runRegOps "p" [RegOp.acq true, RegOp.acq true, RegOp.rel] World.empty).world.activeNodes).isSome = true) ∧
    ((lookupA "p" (runRegOps "p" [RegOp.acq true, RegOp.acq true, RegOp.rel, RegOp.rel] World.empty).world.activeNodes).isSome = false) ∧
    releaseNode "p" World.empty = (World.empty, [Evt.releaseMissing "p"]) := by
  have h1 := c1_refcount_invariant_amended "p" [RegOp.acq true, RegOp.acq true, RegOp.rel]
  have h2 := c1_refcount_invariant_amended "p" [RegOp.acq true, RegOp.acq true, RegOp.rel, RegOp.rel]
  refine ⟨h1.1.mpr (by decide), ?_, h2.2.2 World.empty (by decide)⟩
  have hnot : ¬ ((lookupA "p" (runRegOps "p" [RegOp.acq true, RegOp.acq true, RegOp.rel, RegOp.rel] World.empty).world.activeNodes).isSome = true) := by
    intro hcon
    exact absurd (h2.1.mp hcon) (by decide)
  simpa using hnot

end IpfsNode
